import Mathlib

/- Verification development for the shillervsgold asset valuation engine.

  The JavaScript sources are embedded shallowly:
  - dates are integers (milliseconds since the epoch, as produced by Date
    arithmetic in the source);
  - numbers are rationals; a JS object field that may be absent is an
    Option; the JS falsy test on a number (absent, 0) is modelled by the
    none/zero cases;
  - the one place the source can throw a TypeError on well-typed input
    (reading data[0].date of an empty custom-ticker array) is modelled
    with Except, error marking the thrown exception;
  - module-level mutable series (stockData, goldData, ...) become an
    explicit state record St threaded through every function.
-/

namespace SG

/-- One observation of any series.  Different sources fill different
fields (stock rows carry sp500/cape/cpi, home rows carry realPrice,
gold/bitcoin/custom rows carry price); absent fields are none, matching
the undefined field reads of the source. -/
structure Obs where
  date : ℤ
  cape : Option ℚ := none
  realPrice : Option ℚ := none
  sp500 : Option ℚ := none
  price : Option ℚ := none
  cpi : Option ℚ := none
  deriving DecidableEq

/-- Entry of the customAssets cache: the object may exist while its data
field is absent, which the source distinguishes from a missing object. -/
structure CustomAsset where
  data : Option (List Obs)
  deriving DecidableEq

/-- The module-level state of app code: the raw data arrays, the custom
asset cache and the base CPI fixed after ingestion. -/
structure St where
  stockData : List Obs
  homeData : List Obs
  goldData : List Obs
  btcData : List Obs
  customAssets : String → Option CustomAsset
  baseCPI : ℚ

/-- JS expression x || d for a possibly absent number x: the default is
taken when x is absent or zero (the falsy numbers of the model). -/
def jsOr (x : Option ℚ) (d : ℚ) : ℚ :=
  match x with
  | none => d
  | some v => if v = 0 then d else v

/-- Thirty days in milliseconds, the constant 30 * 24 * 60 * 60 * 1000 of
getBitcoinPriceForDate and getCustomAssetPriceForDate. -/
def thirtyDaysMs : ℤ := 2592000000

/-- The scanning loop shared by every nearest-date lookup of the source:
walk the list keeping the pair (closest, minDiff), replacing it only when
a strictly smaller absolute difference is found. -/
def nearestScanP (target : ℤ) : List Obs → Obs × ℤ → Obs × ℤ
  | [], acc => acc
  | x :: xs, acc =>
    if |target - x.date| < acc.2 then nearestScanP target xs (x, |target - x.date|)
    else nearestScanP target xs acc

/-- Nearest observation to target, none on the empty list: the common
body of getGoldPriceForDate, getHomePriceForDate, getSP500ForDate,
getCapeForDate, getCPIForDate and the preprocess lookups, all of which
initialise the scan with the first element. -/
def nearestObs (target : ℤ) (arr : List Obs) : Option Obs :=
  match arr with
  | [] => none
  | first :: _ => some (nearestScanP target arr (first, |target - first.date|)).1

/-- getCPIForDate: nearest stock row to the date; empty stock data or a
falsy cpi field fall back to baseCPI. -/
def getCPIForDate (st : St) (target : ℤ) : ℚ :=
  match nearestObs target st.stockData with
  | none => st.baseCPI
  | some closest => jsOr closest.cpi st.baseCPI

/-- getGoldPriceForDate: nearest gold row, returning its price field
(none when the series is empty or the field is absent). -/
def getGoldPriceForDate (st : St) (target : ℤ) : Option ℚ :=
  (nearestObs target st.goldData).bind Obs.price

/-- getHomePriceForDate: nearest home row, returning realPrice. -/
def getHomePriceForDate (st : St) (target : ℤ) : Option ℚ :=
  (nearestObs target st.homeData).bind Obs.realPrice

/-- getSP500ForDate: nearest stock row, returning sp500. -/
def getSP500ForDate (st : St) (target : ℤ) : Option ℚ :=
  (nearestObs target st.stockData).bind Obs.sp500

/-- getCapeForDate: nearest stock row, returning cape. -/
def getCapeForDate (st : St) (target : ℤ) : Option ℚ :=
  (nearestObs target st.stockData).bind Obs.cape

/-- getBitcoinPriceForDate: rejects targets more than thirty days before
the first observation, otherwise nearest match. -/
def getBitcoinPriceForDate (st : St) (target : ℤ) : Option ℚ :=
  match st.btcData with
  | [] => none
  | first :: _ =>
    if target < first.date - thirtyDaysMs then none
    else (nearestObs target st.btcData).bind Obs.price

/-- getCustomAssetPriceForDate: a missing cache object or missing data
field returns null, but a present empty data array reaches data[0].date,
a TypeError in the source, modelled as the error case. -/
def getCustomAssetPriceForDate (st : St) (ticker : String) (target : ℤ) :
    Except Unit (Option ℚ) :=
  match st.customAssets ticker with
  | none => .ok none
  | some ca =>
    match ca.data with
    | none => .ok none
    | some data =>
      match data with
      | [] => .error ()
      | first :: _ =>
        if target < first.date - thirtyDaysMs then .ok none
        else .ok ((nearestObs target data).bind Obs.price)

/-- Assets that have an assetMetadata entry. -/
def builtinAsset (asset : String) : Bool :=
  asset = "cape" || asset = "home" || asset = "sp500" || asset = "gold" || asset = "btc"

/-- getDataArrayForAsset: map an asset code to its raw series. -/
def getDataArrayForAsset (st : St) (asset : String) : Option (List Obs) :=
  if asset = "cape" || asset = "sp500" then some st.stockData
  else if asset = "home" then some st.homeData
  else if asset = "gold" then some st.goldData
  else if asset = "btc" then some st.btcData
  else
    match st.customAssets asset with
    | some ca => ca.data
    | none => none

/-- Nominal-to-real conversion as written inline in getAssetValue:
v * (baseCPI / getCPIForDate(d)). -/
def toReal (st : St) (v : ℚ) (d : ℤ) : ℚ :=
  v * (st.baseCPI / getCPIForDate st d)

/-- Real-to-nominal conversion as written inline in getAssetValue:
v * (getCPIForDate(d) / baseCPI). -/
def toNominal (st : St) (v : ℚ) (d : ℤ) : ℚ :=
  v * (getCPIForDate st d / st.baseCPI)

/-- The denominator resolution chain of the asset-denominated branch of
getAssetValue (the else branch handling gold, btc, home, sp500, cape and
custom-ticker denominators), including the per-branch falsy guards of
the source. -/
def denominatorValueCode (st : St) (mode : String) (date : ℤ) :
    Except Unit (Option ℚ) :=
  if mode = "gold" then
    match getGoldPriceForDate st date with
    | none => .ok none
    | some gp =>
      if gp = 0 then .ok none
      else .ok (some (gp * (st.baseCPI / getCPIForDate st date)))
  else if mode = "btc" then
    match getBitcoinPriceForDate st date with
    | none => .ok none
    | some bp =>
      if bp = 0 then .ok none
      else .ok (some (bp * (st.baseCPI / getCPIForDate st date)))
  else if mode = "home" then
    match getHomePriceForDate st date with
    | none => .ok none
    | some hp => if hp = 0 then .ok none else .ok (some hp)
  else if mode = "sp500" then
    match getSP500ForDate st date with
    | none => .ok none
    | some sp => if sp = 0 then .ok none else .ok (some sp)
  else if mode = "cape" then
    match getCapeForDate st date with
    | none => .ok none
    | some cv => if cv = 0 then .ok none else .ok (some cv)
  else if (st.customAssets mode).isSome then
    match getCustomAssetPriceForDate st mode date with
    | .error e => .error e
    | .ok none => .ok none
    | .ok (some cp) =>
      if cp = 0 then .ok none
      else .ok (some (cp * (st.baseCPI / getCPIForDate st date)))
  else .ok none

/-- The raw-value extraction chain at the top of getAssetValue: the JS
field || 0 coercions of the cape, home and sp500 branches, and the
shared body of the gold, btc and custom branches (falsy price guard,
then the nominal price itself in nominal mode or its real conversion
otherwise); none models the early null returns. -/
def rawAssetValue (st : St) (p : Obs) (asset mode : String) : Option ℚ :=
  if asset = "cape" then some (p.cape.getD 0)
  else if asset = "home" then some (p.realPrice.getD 0)
  else if asset = "sp500" then some (p.sp500.getD 0)
  else
    let pr := p.price.getD 0
    if pr = 0 then none
    else some (if mode = "nominal" then pr else toReal st pr p.date)

/-- getAssetValue of the app: raw-value extraction, then the real /
nominal / asset-denominated mode dispatch.  The final falsy-or-zero test
on the resolved denominator is the tail guard of the source. -/
def getAssetValue (st : St) (p : Obs) (asset mode : String) :
    Except Unit (Option ℚ) :=
  let isBuiltin := builtinAsset asset
  let isCustomAsset := !isBuiltin && (st.customAssets asset).isSome
  if !isBuiltin && !isCustomAsset then .ok none
  else
    match rawAssetValue st p asset mode with
    | none => .ok none
    | some assetValue =>
      if mode = "real" then .ok (some assetValue)
      else if mode = "nominal" then
        if asset = "gold" || asset = "btc" then .ok (some assetValue)
        else .ok (some (assetValue * (jsOr p.cpi (getCPIForDate st p.date) / st.baseCPI)))
      else
        match denominatorValueCode st mode p.date with
        | .error e => .error e
        | .ok none => .ok none
        | .ok (some d) => if d = 0 then .ok none else .ok (some (assetValue / d))

/-- Date range of createDataset, endpoints inclusive.  The end field of
the source object is named endDate here because end is reserved. -/
structure DateRange where
  start : ℤ
  endDate : ℤ

/-- filterByDateRange: both bounds inclusive. -/
def filterByDateRange (data : List Obs) (r : DateRange) : List Obs :=
  data.filter (fun item => decide (r.start ≤ item.date) && decide (item.date ≤ r.endDate))

/-- The data loop of createDataset: collect the points valued through
getAssetValue, keeping only those whose value is not null, as x/y pairs
(date, value).  A thrown exception in getAssetValue propagates. -/
def collectPoints (st : St) (asset mode : String) : List Obs → Except Unit (List (ℤ × ℚ))
  | [] => .ok []
  | item :: rest =>
    match getAssetValue st item asset mode with
    | .error e => .error e
    | .ok none => collectPoints st asset mode rest
    | .ok (some v) =>
      match collectPoints st asset mode rest with
      | .error e => .error e
      | .ok pts => .ok ((item.date, v) :: pts)

/-- createDataset, reduced to its data content: none models the error
object the source returns when the asset has no data array or when no
valid point remains in the range. -/
def createDatasetData (st : St) (asset mode : String) (r : DateRange) :
    Except Unit (Option (List (ℤ × ℚ))) :=
  match getDataArrayForAsset st asset with
  | none => .ok none
  | some arr =>
    match collectPoints st asset mode (filterByDateRange arr r) with
    | .error e => .error e
    | .ok pts => .ok (if pts.isEmpty then none else some pts)

/-- The percentile expression of the statistics code:
count of ratios strictly below current, over the total, times 100. -/
def percentileOf (ratios : List ℚ) (current : ℚ) : ℚ :=
  ((ratios.filter (fun r => decide (r < current))).length : ℚ) / (ratios.length : ℚ) * 100

/-- Historical ratio population of loadDataFromAPIs: for each stock row,
nearest gold price (dropped when falsy), converted to real with the rows
own cpi, cape divided by it; rows whose cpi or cape field is absent give
NaN in the source and are removed by its isNaN filter, modelled by the
none cases; the result is sorted ascending (Array.sort with a-b is a
stable ascending sort, as is insertionSort). -/
def historicalRatiosApp (st : St) : List ℚ :=
  List.insertionSort (· ≤ ·) (st.stockData.filterMap (fun stock =>
    match getGoldPriceForDate st stock.date with
    | none => none
    | some gp =>
      if gp = 0 then none
      else
        match stock.cpi, stock.cape with
        | some c, some k => some (k / (gp * (st.baseCPI / c)))
        | _, _ => none))

/-- Current ratio of loadDataFromAPIs: cape of the last stock row over
the real value of the last gold row (nominal price times baseCPI over
the last stock rows cpi).  Empty series or absent fields crash or give
NaN in the source; both are modelled as none. -/
def currentRatioApp (st : St) : Option ℚ :=
  match st.stockData.getLast?, st.goldData.getLast? with
  | some ls, some lg =>
    match ls.cpi, ls.cape, lg.price with
    | some c, some k, some gp => some (k / (gp * (st.baseCPI / c)))
    | _, _, _ => none
  | _, _ => none

/-- The percentile field of the stats object built by loadDataFromAPIs. -/
def statsPercentileApp (st : St) : Option ℚ :=
  (currentRatioApp st).map (fun cr => percentileOf (historicalRatiosApp st) cr)

/-- Elapsed years of calculateInvestmentReturn:
(endPoint.date - startPoint.date) / (1000 * 60 * 60 * 24 * 365.25). -/
def yearsBetween (startMs endMs : ℤ) : ℚ :=
  ((endMs - startMs : ℤ) : ℚ) / 31557600000

/-- Annualized return of calculateInvestmentReturn:
years > 0 ? (pow(multiplier, 1 / years) - 1) * 100 : 0.  Math.pow is
abstracted as the function argument powFn; the branch structure and the
exponent are those of the source. -/
def annualizedReturnPct (powFn : ℚ → ℚ → ℚ) (multiplier : ℚ) (startMs endMs : ℤ) : ℚ :=
  if 0 < yearsBetween startMs endMs then
    (powFn multiplier (1 / yearsBetween startMs endMs) - 1) * 100
  else 0

namespace Pre

/-- preprocess getGoldPrice: nearest gold row, returning price. -/
def getGoldPrice (goldData : List Obs) (target : ℤ) : Option ℚ :=
  (nearestObs target goldData).bind Obs.price

/-- preprocess getCPI: nearest stock row, returning cpi (no baseCPI
fallback in this variant). -/
def getCPI (stockData : List Obs) (target : ℤ) : Option ℚ :=
  (nearestObs target stockData).bind Obs.cpi

/-- preprocess adjustGoldForInflation: convert each nominal gold price
to real using the cpi nearest to its date, with the last stock rows cpi
as base; rows whose cpi lookup is falsy are dropped.  A missing price or
base cpi gives NaN in the source, modelled as an absent price field. -/
def adjustGoldForInflation (goldData stockData : List Obs) : List Obs :=
  if goldData.isEmpty || stockData.isEmpty then goldData
  else
    match stockData.getLast? with
    | none => goldData
    | some latest =>
      goldData.filterMap (fun g =>
        match getCPI stockData g.date with
        | none => none
        | some c =>
          if c = 0 then none
          else some { g with price :=
            match g.price, latest.cpi with
            | some pnom, some b => some (pnom * (b / c))
            | _, _ => none })

/-- The historical ratio population of preprocess computeStats: cape of
each stock row divided by the NOMINAL gold price nearest to its date
(the goldData argument, not the inflation-adjusted series), nulls
dropped, sorted ascending. -/
def allRatios (stockData goldData : List Obs) : List ℚ :=
  List.insertionSort (· ≤ ·) (stockData.filterMap (fun item =>
    match getGoldPrice goldData item.date with
    | none => none
    | some gp =>
      if gp = 0 then none
      else item.cape.map (fun k => k / gp)))

/-- preprocess computeStats, reduced to (currentRatio, percentile):
currentRatio divides the last cape by the last REAL gold price, while
the percentile population allRatios uses nominal gold prices. -/
def computeStats (stockData goldData : List Obs) : Option (ℚ × ℚ) :=
  if stockData.isEmpty || goldData.isEmpty then none
  else
    let realGoldData := adjustGoldForInflation goldData stockData
    match stockData.getLast?, realGoldData.getLast? with
    | some ls, some lg =>
      match ls.cape, lg.price with
      | some k, some gReal =>
        let currentR := k / gReal
        some (currentR, percentileOf (allRatios stockData goldData) currentR)
      | _, _ => none
    | _, _ => none

/-- Modelled from the spec: the historical ratio population as the spec
states it for computeStats - for every stock observation, cape divided
by the real (inflation-adjusted) gold value at that date, failed gold
lookups dropped, sorted ascending. -/
def specHistoricalRatios (stockData goldData : List Obs) : List ℚ :=
  let realGoldData := adjustGoldForInflation goldData stockData
  List.insertionSort (· ≤ ·) (stockData.filterMap (fun item =>
    match getGoldPrice realGoldData item.date with
    | none => none
    | some gp =>
      if gp = 0 then none
      else item.cape.map (fun k => k / gp)))

end Pre

/-- The raw nearest-date lookup of each ratio-mode denominator, the
lookup half of the denominator resolution chain. -/
def denomRawLookup (st : St) (mode : String) (date : ℤ) : Except Unit (Option ℚ) :=
  if mode = "gold" then .ok (getGoldPriceForDate st date)
  else if mode = "btc" then .ok (getBitcoinPriceForDate st date)
  else if mode = "home" then .ok (getHomePriceForDate st date)
  else if mode = "sp500" then .ok (getSP500ForDate st date)
  else if mode = "cape" then .ok (getCapeForDate st date)
  else if (st.customAssets mode).isSome then getCustomAssetPriceForDate st mode date
  else .ok none

/-- Denominators whose stored series is nominal and must be converted to
real: gold, bitcoin and custom tickers. -/
def denomNativeNominal (st : St) (mode : String) : Bool :=
  mode = "gold" || mode = "btc" || (!(builtinAsset mode) && (st.customAssets mode).isSome)

/-- Denominator resolution as the spec words it: look the denominator up
in its own series at the date, treat an unavailable or zero value as
null, convert to real with toReal when the native form is nominal and
use the value directly when it is already real. -/
def resolveDenominatorSpec (st : St) (mode : String) (date : ℤ) :
    Except Unit (Option ℚ) :=
  match denomRawLookup st mode date with
  | .error e => .error e
  | .ok none => .ok none
  | .ok (some p) =>
    if p = 0 then .ok none
    else .ok (some (if denomNativeNominal st mode then toReal st p date else p))

/-! Helper lemmas about the nearest-date scanning loop. -/

theorem nearestScanP_snd_le (t : ℤ) :
    ∀ (l : List Obs) (acc : Obs × ℤ), (nearestScanP t l acc).2 ≤ acc.2 := by
  intro l
  induction l with
  | nil => intro acc; simp [nearestScanP]
  | cons x xs ih =>
    intro acc
    simp only [nearestScanP]
    by_cases h : |t - x.date| < acc.2
    · rw [if_pos h]; exact (ih _).trans h.le
    · rw [if_neg h]; exact ih _

theorem nearestScanP_min (t : ℤ) :
    ∀ (l : List Obs) (acc : Obs × ℤ) (x : Obs), x ∈ l →
      (nearestScanP t l acc).2 ≤ |t - x.date| := by
  intro l
  induction l with
  | nil => intro acc x hx; cases hx
  | cons y ys ih =>
    intro acc x hx
    simp only [nearestScanP]
    rcases List.mem_cons.mp hx with h | h
    · subst h
      by_cases hc : |t - x.date| < acc.2
      · rw [if_pos hc]; exact nearestScanP_snd_le t ys _
      · rw [if_neg hc]; exact (nearestScanP_snd_le t ys _).trans (not_lt.mp hc)
    · by_cases hc : |t - y.date| < acc.2
      · rw [if_pos hc]; exact ih _ x h
      · rw [if_neg hc]; exact ih _ x h

theorem nearestScanP_inv (t : ℤ) :
    ∀ (l : List Obs) (acc : Obs × ℤ), acc.2 = |t - acc.1.date| →
      (nearestScanP t l acc).2 = |t - (nearestScanP t l acc).1.date| := by
  intro l
  induction l with
  | nil => intro acc h; simpa [nearestScanP] using h
  | cons x xs ih =>
    intro acc h
    simp only [nearestScanP]
    by_cases hc : |t - x.date| < acc.2
    · rw [if_pos hc]; exact ih _ rfl
    · rw [if_neg hc]; exact ih _ h

theorem nearestScanP_mem (t : ℤ) :
    ∀ (l : List Obs) (acc : Obs × ℤ),
      (nearestScanP t l acc).1 = acc.1 ∨ (nearestScanP t l acc).1 ∈ l := by
  intro l
  induction l with
  | nil => intro acc; left; rfl
  | cons x xs ih =>
    intro acc
    simp only [nearestScanP]
    by_cases hc : |t - x.date| < acc.2
    · rw [if_pos hc]
      rcases ih (x, |t - x.date|) with h | h
      · right; rw [h]; exact List.mem_cons_self _ _
      · right; exact List.mem_cons_of_mem _ h
    · rw [if_neg hc]
      rcases ih acc with h | h
      · left; exact h
      · right; exact List.mem_cons_of_mem _ h

theorem nearestScanP_stay (t : ℤ) :
    ∀ (l : List Obs) (acc : Obs × ℤ), (nearestScanP t l acc).2 = acc.2 →
      (nearestScanP t l acc).1 = acc.1 := by
  intro l
  induction l with
  | nil => intro acc _; rfl
  | cons x xs ih =>
    intro acc h
    simp only [nearestScanP] at h ⊢
    by_cases hc : |t - x.date| < acc.2
    · rw [if_pos hc] at h
      have hle := nearestScanP_snd_le t xs (x, |t - x.date|)
      exact absurd (h ▸ hle) (not_le.mpr hc)
    · rw [if_neg hc] at h ⊢
      exact ih _ h

theorem nearestScanP_tie (t : ℤ) :
    ∀ (l : List Obs) (c : Obs) (m : ℤ), m = |t - c.date| →
      l.Pairwise (fun a b => a.date ≤ b.date) →
      (∀ y ∈ l, c.date ≤ y.date) →
      ∀ y ∈ l, |t - y.date| = (nearestScanP t l (c, m)).2 →
        (nearestScanP t l (c, m)).1.date ≤ y.date := by
  intro l
  induction l with
  | nil => intro c m _ _ _ y hy; cases hy
  | cons x xs ih =>
    intro c m hm hpair hless y hy hdist
    have hpair2 := (List.pairwise_cons.mp hpair).2
    have hxle := (List.pairwise_cons.mp hpair).1
    simp only [nearestScanP] at hdist ⊢
    by_cases hc : |t - x.date| < m
    · rw [if_pos hc] at hdist ⊢
      rcases List.mem_cons.mp hy with h | h
      · subst h
        have hstay := nearestScanP_stay t xs (y, |t - y.date|) hdist.symm
        rw [hstay]
      · exact ih x (|t - x.date|) rfl hpair2 hxle y h hdist
    · rw [if_neg hc] at hdist ⊢
      rcases List.mem_cons.mp hy with h | h
      · subst h
        have hle := nearestScanP_snd_le t xs (c, m)
        have hge : m ≤ (nearestScanP t xs (c, m)).2 := by
          rw [← hdist]; exact not_lt.mp hc
        have hstay := nearestScanP_stay t xs (c, m) (le_antisymm hle hge)
        rw [hstay]
        exact hless y (List.mem_cons_self _ _)
      · exact ih c m hm hpair2 (fun z hz => hless z (List.mem_cons_of_mem _ hz)) y h hdist

theorem nearestScanP_first (t : ℤ) (l : List Obs) (c : Obs) (m : ℤ)
    (hm : m = |t - c.date|) (hmin : ∀ x ∈ l, m ≤ |t - x.date|) :
    (nearestScanP t l (c, m)).1 = c := by
  apply nearestScanP_stay
  apply le_antisymm (nearestScanP_snd_le t l (c, m))
  have hinv := nearestScanP_inv t l (c, m) (by simpa using hm)
  rcases nearestScanP_mem t l (c, m) with h | h
  · rw [hinv, h]; exact hm.le
  · rw [hinv]; exact hmin _ h

theorem nearestObs_spec (t : ℤ) (l : List Obs) (hne : l ≠ [])
    (hsort : l.Pairwise (fun a b => a.date ≤ b.date)) :
    ∃ r, nearestObs t l = some r ∧ r ∈ l ∧
      (∀ x ∈ l, |t - r.date| ≤ |t - x.date|) ∧
      (∀ x ∈ l, |t - x.date| = |t - r.date| → r.date ≤ x.date) := by
  obtain ⟨f, rest, rfl⟩ := List.exists_cons_of_ne_nil hne
  have hless : ∀ y ∈ f :: rest, f.date ≤ y.date := by
    intro y hy
    rcases List.mem_cons.mp hy with h | h
    · rw [h]
    · exact (List.pairwise_cons.mp hsort).1 y h
  have hinv := nearestScanP_inv t (f :: rest) (f, |t - f.date|) rfl
  refine ⟨(nearestScanP t (f :: rest) (f, |t - f.date|)).1, rfl, ?_, ?_, ?_⟩
  · rcases nearestScanP_mem t (f :: rest) (f, |t - f.date|) with h | h
    · rw [h]; exact List.mem_cons_self _ _
    · exact h
  · intro x hx
    rw [← hinv]
    exact nearestScanP_min t (f :: rest) _ x hx
  · intro x hx hd
    exact nearestScanP_tie t (f :: rest) f (|t - f.date|) rfl hsort hless x hx
      (hd.trans hinv.symm)

theorem nearestObs_first_of_le (t : ℤ) (f : Obs) (rest : List Obs)
    (hsort : (f :: rest).Pairwise (fun a b => a.date ≤ b.date)) (ht : t ≤ f.date) :
    nearestObs t (f :: rest) = some f := by
  have hmin : ∀ x ∈ f :: rest, |t - f.date| ≤ |t - x.date| := by
    intro x hx
    have hfx : f.date ≤ x.date := by
      rcases List.mem_cons.mp hx with h | h
      · rw [h]
      · exact (List.pairwise_cons.mp hsort).1 x h
    have h1 : |t - f.date| = f.date - t := by
      rw [abs_of_nonpos (by omega : t - f.date ≤ 0)]; ring
    have h2 : |t - x.date| = x.date - t := by
      rw [abs_of_nonpos (by omega : t - x.date ≤ 0)]; ring
    omega
  simp only [nearestObs]
  rw [nearestScanP_first t (f :: rest) f (|t - f.date|) rfl hmin]

/-- C6.  For every non-empty series sorted ascending by date and every
target date, the nearest-date lookup of getGoldPriceForDate (the scan
shared by every ForDate lookup, instantiated at the gold series) returns
the observation with minimal absolute time difference to the target, and
when two observations are equidistant it returns the earliest-dated
(first-encountered) one. -/
theorem nearest_lookup_min_tiebreak (st : St) (t : ℤ)
    (hne : st.goldData ≠ [])
    (hsort : st.goldData.Pairwise (fun a b => a.date ≤ b.date)) :
    ∃ r, nearestObs t st.goldData = some r ∧ r ∈ st.goldData ∧
      getGoldPriceForDate st t = r.price ∧
      (∀ x ∈ st.goldData, |t - r.date| ≤ |t - x.date|) ∧
      (∀ x ∈ st.goldData, |t - x.date| = |t - r.date| → r.date ≤ x.date) := by
  obtain ⟨r, hobs, hmem, hmin, htie⟩ := nearestObs_spec t st.goldData hne hsort
  refine ⟨r, hobs, hmem, ?_, hmin, htie⟩
  unfold getGoldPriceForDate
  rw [hobs]
  rfl

/-- Concrete series for the C6 witness: observations at dates 0 and 2
with target 1, equidistant on both sides. -/
def goldTieSt : St :=
  { stockData := [], homeData := [],
    goldData := [{ date := 0, price := some 7 }, { date := 2, price := some 9 }],
    btcData := [], customAssets := fun _ => none, baseCPI := 1 }

/-- Witness for C6: the hypotheses hold for the concrete two-point gold
series and the theorem applies to it. -/
theorem nearest_lookup_min_tiebreak_witness :
    goldTieSt.goldData ≠ [] ∧
    (∃ r, nearestObs 1 goldTieSt.goldData = some r ∧ r ∈ goldTieSt.goldData ∧
      getGoldPriceForDate goldTieSt 1 = r.price ∧
      (∀ x ∈ goldTieSt.goldData, |1 - r.date| ≤ |1 - x.date|) ∧
      (∀ x ∈ goldTieSt.goldData, |1 - x.date| = |1 - r.date| → r.date ≤ x.date)) :=
  ⟨by simp [goldTieSt],
   nearest_lookup_min_tiebreak goldTieSt 1 (by simp [goldTieSt]) (by simp [goldTieSt])⟩

/-- C7.  For the bounded-history lookups (Bitcoin and custom tickers): a
target more than thirty days before the first observation date returns
null; a target at or after that cutoff returns an observation of the
series, and when the target is at or before the first observation date
(so that the first observation is nearest in an ascending series) it
returns precisely the first observation. -/
theorem bounded_history_inception_tolerance (st : St) (t : ℤ) :
    (∀ f rest, st.btcData = f :: rest →
      (t < f.date - thirtyDaysMs → getBitcoinPriceForDate st t = none) ∧
      (f.date - thirtyDaysMs ≤ t →
        ∃ r ∈ st.btcData, getBitcoinPriceForDate st t = r.price) ∧
      (f.date - thirtyDaysMs ≤ t → t ≤ f.date →
        (f :: rest).Pairwise (fun a b => a.date ≤ b.date) →
        getBitcoinPriceForDate st t = f.price)) ∧
    (∀ tick ca data f rest, st.customAssets tick = some ca → ca.data = some data →
      data = f :: rest →
      (t < f.date - thirtyDaysMs → getCustomAssetPriceForDate st tick t = .ok none) ∧
      (f.date - thirtyDaysMs ≤ t →
        ∃ r ∈ data, getCustomAssetPriceForDate st tick t = .ok r.price) ∧
      (f.date - thirtyDaysMs ≤ t → t ≤ f.date →
        (f :: rest).Pairwise (fun a b => a.date ≤ b.date) →
        getCustomAssetPriceForDate st tick t = .ok f.price)) := by
  constructor
  · intro f rest hbtc
    refine ⟨?_, ?_, ?_⟩
    · intro hlt
      unfold getBitcoinPriceForDate
      simp only [hbtc]
      rw [if_pos hlt]
    · intro hge
      obtain ⟨r, hobs, hmem⟩ : ∃ r, nearestObs t st.btcData = some r ∧ r ∈ st.btcData := by
        rw [hbtc]
        refine ⟨(nearestScanP t (f :: rest) (f, |t - f.date|)).1, rfl, ?_⟩
        rcases nearestScanP_mem t (f :: rest) (f, |t - f.date|) with h | h
        · rw [h]; exact List.mem_cons_self _ _
        · exact h
      refine ⟨r, hmem, ?_⟩
      unfold getBitcoinPriceForDate
      simp only [hbtc]
      rw [if_neg (not_lt.mpr hge), ← hbtc, hobs]
      rfl
    · intro hge hle hsort
      unfold getBitcoinPriceForDate
      simp only [hbtc]
      rw [if_neg (not_lt.mpr hge), nearestObs_first_of_le t f rest hsort hle]
      rfl
  · intro tick ca data f rest hca hdata hcons
    refine ⟨?_, ?_, ?_⟩
    · intro hlt
      unfold getCustomAssetPriceForDate
      simp only [hca, hdata, hcons]
      rw [if_pos hlt]
    · intro hge
      obtain ⟨r, hobs, hmem⟩ : ∃ r, nearestObs t data = some r ∧ r ∈ data := by
        rw [hcons]
        refine ⟨(nearestScanP t (f :: rest) (f, |t - f.date|)).1, rfl, ?_⟩
        rcases nearestScanP_mem t (f :: rest) (f, |t - f.date|) with h | h
        · rw [h]; exact List.mem_cons_self _ _
        · exact h
      refine ⟨r, hmem, ?_⟩
      unfold getCustomAssetPriceForDate
      simp only [hca, hdata, hcons]
      rw [if_neg (not_lt.mpr hge), ← hcons, hobs]
      rfl
    · intro hge hle hsort
      unfold getCustomAssetPriceForDate
      simp only [hca, hdata, hcons]
      rw [if_neg (not_lt.mpr hge), nearestObs_first_of_le t f rest hsort hle]
      rfl

/-- Concrete bounded-history state for the C7 witness: one Bitcoin and
one custom-ticker series whose first observation sits at time
4000000000000, with targets on both sides of the thirty-day cutoff. -/
def btcSt : St :=
  { stockData := [], homeData := [], goldData := [],
    btcData := [{ date := 4000000000000, price := some 42 }],
    customAssets := fun tick =>
      if tick = "TICK" then some { data := some [{ date := 4000000000000, price := some 9 }] }
      else none,
    baseCPI := 1 }

/-- Witness for C7: at the concrete state, a target more than thirty
days before the first Bitcoin observation returns null and a target
within thirty days before it returns the first observation, and the
same holds for the custom ticker. -/
theorem bounded_history_inception_tolerance_witness :
    getBitcoinPriceForDate btcSt 3000000000000 = none ∧
    getBitcoinPriceForDate btcSt 3999000000000 = some 42 ∧
    getCustomAssetPriceForDate btcSt "TICK" 3000000000000 = .ok none ∧
    getCustomAssetPriceForDate btcSt "TICK" 3999000000000 = .ok (some 9) :=
  ⟨((bounded_history_inception_tolerance btcSt 3000000000000).1
      { date := 4000000000000, price := some 42 } [] rfl).1 (by decide),
   ((bounded_history_inception_tolerance btcSt 3999000000000).1
      { date := 4000000000000, price := some 42 } [] rfl).2.2
      (by decide) (by decide) (by simp),
   ((bounded_history_inception_tolerance btcSt 3000000000000).2
      "TICK" { data := some [{ date := 4000000000000, price := some 9 }] }
      [{ date := 4000000000000, price := some 9 }]
      { date := 4000000000000, price := some 9 } [] (by rfl) rfl rfl).1 (by decide),
   ((bounded_history_inception_tolerance btcSt 3999000000000).2
      "TICK" { data := some [{ date := 4000000000000, price := some 9 }] }
      [{ date := 4000000000000, price := some 9 }]
      { date := 4000000000000, price := some 9 } [] (by rfl) rfl rfl).2.2
      (by decide) (by decide) (by simp)⟩

/-- State with fully empty series for the C10 analysis: the customAssets
cache holds a ticker object whose data field is a present empty array,
the case the source fails to guard. -/
def emptySt : St :=
  { stockData := [], homeData := [], goldData := [], btcData := [],
    customAssets := fun tick => if tick = "XYZ" then some { data := some [] } else none,
    baseCPI := 1 }

/-- C10 counterexample.  Applying the custom-ticker nearest-date lookup
to a present-but-empty series does not return null: it reaches the read
of the missing first element, a TypeError in the source, modelled as the
error value. -/
theorem customLookup_empty_series_error :
    getCustomAssetPriceForDate emptySt "XYZ" 0 = .error () ∧
    getCustomAssetPriceForDate emptySt "XYZ" 0 ≠ .ok none := by
  refine ⟨rfl, ?_⟩
  intro h
  rw [show getCustomAssetPriceForDate emptySt "XYZ" 0 = .error () from rfl] at h
  exact Except.noConfusion h

/-- C10 as amended.  Every nearest-date lookup over a module-level
series (gold, home, sp500, cape, bitcoin) returns null on an empty
series, and the custom-ticker lookup returns null when the cache object
or its data field is missing; but when the cached data field holds an
empty array the custom-ticker lookup faults on the missing first element
instead of returning null. -/
theorem empty_series_lookup_policy :
    (∀ (st : St) (t : ℤ), st.goldData = [] → getGoldPriceForDate st t = none) ∧
    (∀ (st : St) (t : ℤ), st.homeData = [] → getHomePriceForDate st t = none) ∧
    (∀ (st : St) (t : ℤ), st.stockData = [] →
      getSP500ForDate st t = none ∧ getCapeForDate st t = none) ∧
    (∀ (st : St) (t : ℤ), st.btcData = [] → getBitcoinPriceForDate st t = none) ∧
    (∀ (st : St) (tick : String) (t : ℤ), st.customAssets tick = none →
      getCustomAssetPriceForDate st tick t = .ok none) ∧
    (∀ (st : St) (tick : String) (t : ℤ) (ca : CustomAsset),
      st.customAssets tick = some ca → ca.data = some [] →
      getCustomAssetPriceForDate st tick t = .error ()) := by
  refine ⟨?_, ?_, ?_, ?_, ?_, ?_⟩
  · intro st t h; simp [getGoldPriceForDate, nearestObs, h]
  · intro st t h; simp [getHomePriceForDate, nearestObs, h]
  · intro st t h
    constructor
    · simp [getSP500ForDate, nearestObs, h]
    · simp [getCapeForDate, nearestObs, h]
  · intro st t h; simp [getBitcoinPriceForDate, h]
  · intro st tick t h; simp [getCustomAssetPriceForDate, h]
  · intro st tick t ca h hd; simp [getCustomAssetPriceForDate, h, hd]

/-- Witness for the amended C10 at the concrete empty state. -/
theorem empty_series_lookup_policy_witness :
    getGoldPriceForDate emptySt 0 = none ∧
    getBitcoinPriceForDate emptySt 0 = none ∧
    getCustomAssetPriceForDate emptySt "ABC" 0 = .ok none ∧
    getCustomAssetPriceForDate emptySt "XYZ" 0 = .error () :=
  ⟨empty_series_lookup_policy.1 emptySt 0 rfl,
   empty_series_lookup_policy.2.2.2.1 emptySt 0 rfl,
   empty_series_lookup_policy.2.2.2.2.1 emptySt "ABC" 0 (by rfl),
   empty_series_lookup_policy.2.2.2.2.2 emptySt "XYZ" 0
     { data := some [] } (by rfl) rfl⟩

/-- Observation with every value field absent, in particular no cape. -/
def obsNoCape : Obs := { date := 0 }

/-- C1 counterexample.  For the cape asset, an observation whose raw
field (cape) is absent makes getAssetValue return 0, not null: the
source coerces the missing field with || 0 and has no null guard on the
cape, home and sp500 branches. -/
theorem getAssetValue_absent_cape_not_null :
    obsNoCape.cape = none ∧
    getAssetValue emptySt obsNoCape "cape" "real" = .ok (some 0) ∧
    getAssetValue emptySt obsNoCape "cape" "real" ≠ .ok none := by
  refine ⟨rfl, rfl, ?_⟩
  intro h
  rw [show getAssetValue emptySt obsNoCape "cape" "real" = .ok (some 0) from rfl] at h
  have h2 : (some (0 : ℚ)) = (none : Option ℚ) := by injection h
  exact Option.some_ne_none _ h2

/-- Decomposition of the builtin test into the five name inequalities. -/
theorem builtinAsset_eq_false_iff (t : String) :
    builtinAsset t = false ↔
      t ≠ "cape" ∧ t ≠ "home" ∧ t ≠ "sp500" ∧ t ≠ "gold" ∧ t ≠ "btc" := by
  simp only [builtinAsset, Bool.or_eq_false_iff, decide_eq_false_iff_not]
  tauto

/-- C1 as amended.  An absent or zero raw price field yields null only
for the natively nominal assets (gold, btc and custom tickers, whose
branches carry the falsy-price guard); for cape, home and sp500 the
absent or zero raw field is coerced to 0 and returned as the value 0
rather than null, and a present raw field - positive or not - is passed
through unchanged in real mode. -/
theorem getAssetValue_raw_field_policy :
    (∀ (st : St) (p : Obs) (mode : String), p.price = none ∨ p.price = some 0 →
      getAssetValue st p "gold" mode = .ok none) ∧
    (∀ (st : St) (p : Obs) (mode : String), p.price = none ∨ p.price = some 0 →
      getAssetValue st p "btc" mode = .ok none) ∧
    (∀ (st : St) (p : Obs) (mode tick : String), builtinAsset tick = false →
      (st.customAssets tick).isSome → p.price = none ∨ p.price = some 0 →
      getAssetValue st p tick mode = .ok none) ∧
    (∀ (st : St) (p : Obs), p.cape = none ∨ p.cape = some 0 →
      getAssetValue st p "cape" "real" = .ok (some 0)) ∧
    (∀ (st : St) (p : Obs), p.realPrice = none ∨ p.realPrice = some 0 →
      getAssetValue st p "home" "real" = .ok (some 0)) ∧
    (∀ (st : St) (p : Obs), p.sp500 = none ∨ p.sp500 = some 0 →
      getAssetValue st p "sp500" "real" = .ok (some 0)) ∧
    (∀ (st : St) (p : Obs) (v : ℚ), p.cape = some v →
      getAssetValue st p "cape" "real" = .ok (some v)) ∧
    (∀ (st : St) (p : Obs) (v : ℚ), v ≠ 0 → p.price = some v →
      getAssetValue st p "gold" "nominal" = .ok (some v)) := by
  refine ⟨?_, ?_, ?_, ?_, ?_, ?_, ?_, ?_⟩
  · rintro st p mode (h | h) <;> simp [getAssetValue, rawAssetValue, builtinAsset, h]
  · rintro st p mode (h | h) <;> simp [getAssetValue, rawAssetValue, builtinAsset, h]
  · rintro st p mode tick hb hs (h | h) <;>
      obtain ⟨h1, h2, h3, h4, h5⟩ := (builtinAsset_eq_false_iff tick).mp hb <;>
      simp [getAssetValue, rawAssetValue, builtinAsset, h1, h2, h3, h4, h5, hs, h]
  · rintro st p (h | h) <;> simp [getAssetValue, rawAssetValue, builtinAsset, h]
  · rintro st p (h | h) <;> simp [getAssetValue, rawAssetValue, builtinAsset, h]
  · rintro st p (h | h) <;> simp [getAssetValue, rawAssetValue, builtinAsset, h]
  · intro st p v h; simp [getAssetValue, rawAssetValue, builtinAsset, h]
  · intro st p v hv h; simp [getAssetValue, rawAssetValue, builtinAsset, h, hv]

/-- Observation carrying only a zero price, for the C1 witness. -/
def obsZeroPrice : Obs := { date := 0, price := some 0 }

/-- Witness for the amended C1: concrete zero-price and absent-cape
observations behave as the amended claim states. -/
theorem getAssetValue_raw_field_policy_witness :
    getAssetValue emptySt obsZeroPrice "gold" "real" = .ok none ∧
    getAssetValue emptySt obsNoCape "home" "real" = .ok (some 0) :=
  ⟨getAssetValue_raw_field_policy.1 emptySt obsZeroPrice "real" (Or.inr rfl),
   getAssetValue_raw_field_policy.2.2.2.2.1 emptySt obsNoCape (Or.inl rfl)⟩

/-- C2.  The percentile of the statistics snapshot is 100 times the
count of historical ratios strictly below the current ratio over the
total count; at the boundary input [1,2,3,4,5] with current ratio 5 it
is 80, not 100; and the snapshot percentile of the app is exactly this
expression applied to its historical population and current ratio. -/
theorem percentile_strict_lt_formula :
    (∀ (ratios : List ℚ) (current : ℚ),
      percentileOf ratios current =
        100 * ((ratios.filter (fun r => decide (r < current))).length : ℚ) /
          (ratios.length : ℚ)) ∧
    percentileOf [1, 2, 3, 4, 5] 5 = 80 ∧
    percentileOf [1, 2, 3, 4, 5] 5 ≠ 100 ∧
    (∀ (st : St) (cr : ℚ), currentRatioApp st = some cr →
      statsPercentileApp st = some (percentileOf (historicalRatiosApp st) cr)) := by
  refine ⟨?_, ?_, ?_, ?_⟩
  · intro ratios current
    unfold percentileOf
    ring
  · norm_num [percentileOf, List.filter]
  · norm_num [percentileOf, List.filter]
  · intro st cr h
    unfold statsPercentileApp
    rw [h]
    rfl

/-- One-point state for the C2 witness. -/
def statsSt : St :=
  { stockData := [{ date := 0, cape := some 10, cpi := some 100 }],
    homeData := [], goldData := [{ date := 0, price := some 100 }],
    btcData := [], customAssets := fun _ => none, baseCPI := 100 }

/-- Witness for C2: at the one-point state the current ratio resolves
and the snapshot percentile is the strict-less-than expression, which
evaluates to 0 there. -/
theorem percentile_strict_lt_formula_witness :
    statsPercentileApp statsSt = some 0 := by
  have hcr : currentRatioApp statsSt = some (1 / 10) := by
    norm_num [currentRatioApp, statsSt, List.getLast?]
  rw [percentile_strict_lt_formula.2.2.2 statsSt (1 / 10) hcr]
  norm_num [historicalRatiosApp, statsSt, getGoldPriceForDate, nearestObs, nearestScanP,
    List.filterMap, List.insertionSort, List.orderedInsert, percentileOf, List.filter]

/-- C3.  The inline nominal-to-real and real-to-nominal conversions of
getAssetValue, taken at the same date and base CPI, are exact inverses:
the round trip returns the original value exactly, hence in particular
within the 1e-9 relative tolerance of the spec. -/
theorem toNominal_toReal_roundtrip (st : St) (v : ℚ) (d : ℤ)
    (hc : getCPIForDate st d ≠ 0) (hb : st.baseCPI ≠ 0) :
    toNominal st (toReal st v d) d = v ∧
    |toNominal st (toReal st v d) d - v| ≤ 1 / 1000000000 * |v| := by
  have h : toNominal st (toReal st v d) d = v := by
    unfold toReal toNominal
    field_simp
  refine ⟨h, ?_⟩
  rw [h, sub_self, abs_zero]
  positivity

/-- One-point stock state with cpi 3 and base CPI 2 for the C3 witness. -/
def cpiSt : St :=
  { stockData := [{ date := 0, cpi := some 3 }], homeData := [], goldData := [],
    btcData := [], customAssets := fun _ => none, baseCPI := 2 }

/-- Witness for C3 at a state where the CPI at the date (3) differs from
the base CPI (2). -/
theorem toNominal_toReal_roundtrip_witness :
    toNominal cpiSt (toReal cpiSt 5 0) 0 = 5 :=
  (toNominal_toReal_roundtrip cpiSt 5 0 (by decide) (by decide)).1

/-- C9.  In the return calculator, zero or negative elapsed time between
the start and end observations gives an annualized return of exactly 0,
and positive elapsed time gives (pow(multiplier, 1/years) - 1) * 100
with years the elapsed milliseconds over 31557600000 (days / 365.25). -/
theorem annualized_return_degenerate (powFn : ℚ → ℚ → ℚ) (m : ℚ) (s e : ℤ) :
    (e ≤ s → annualizedReturnPct powFn m s e = 0) ∧
    (s < e → annualizedReturnPct powFn m s e =
      (powFn m (1 / yearsBetween s e) - 1) * 100) := by
  constructor
  · intro h
    unfold annualizedReturnPct
    rw [if_neg]
    rw [not_lt]
    unfold yearsBetween
    have h1 : ((e - s : ℤ) : ℚ) ≤ 0 := by exact_mod_cast sub_nonpos.mpr h
    exact div_nonpos_iff.mpr (Or.inr ⟨h1, by norm_num⟩)
  · intro h
    unfold annualizedReturnPct
    rw [if_pos]
    unfold yearsBetween
    apply div_pos
    · have : (0 : ℚ) < ((e - s : ℤ) : ℚ) := by
        exact_mod_cast sub_pos.mpr h
      exact this
    · norm_num

/-- Witness for C9: equal start and end dates give exactly 0, and a
one-year gap gives the pow expression (here with pow abstracted as the
first projection, so the value is (2 - 1) * 100). -/
theorem annualized_return_degenerate_witness :
    annualizedReturnPct (fun a _ => a) 2 5 5 = 0 ∧
    annualizedReturnPct (fun a _ => a) 2 0 31557600000 = 100 := by
  constructor
  · exact (annualized_return_degenerate (fun a _ => a) 2 5 5).1 (by decide)
  · rw [(annualized_return_degenerate (fun a _ => a) 2 0 31557600000).2 (by decide)]
    norm_num

/-- C4.  The denominator resolution of getAssetValue equals the
spec-side resolution for every mode string and date: the raw value is
looked up in the denominator series, an unavailable or zero value gives
null, natively nominal denominators (gold, btc, custom tickers) are
converted to real with toReal before dividing, and already-real fields
(home, sp500, cape) are used directly; no branch resolves a denominator
in nominal form. -/
theorem denominator_resolved_real (st : St) (mode : String) (date : ℤ) :
    denominatorValueCode st mode date = resolveDenominatorSpec st mode date := by
  by_cases h1 : mode = "gold"
  · subst h1
    cases hg : getGoldPriceForDate st date with
    | none => simp [denominatorValueCode, resolveDenominatorSpec, denomRawLookup, hg]
    | some gp =>
      by_cases hz : gp = 0
      · simp [denominatorValueCode, resolveDenominatorSpec, denomRawLookup, hg, hz]
      · simp [denominatorValueCode, resolveDenominatorSpec, denomRawLookup,
          denomNativeNominal, toReal, hg, hz]
  · by_cases h2 : mode = "btc"
    · subst h2
      cases hg : getBitcoinPriceForDate st date with
      | none => simp [denominatorValueCode, resolveDenominatorSpec, denomRawLookup, hg]
      | some bp =>
        by_cases hz : bp = 0
        · simp [denominatorValueCode, resolveDenominatorSpec, denomRawLookup, hg, hz]
        · simp [denominatorValueCode, resolveDenominatorSpec, denomRawLookup,
            denomNativeNominal, toReal, hg, hz]
    · by_cases h3 : mode = "home"
      · subst h3
        cases hg : getHomePriceForDate st date with
        | none => simp [denominatorValueCode, resolveDenominatorSpec, denomRawLookup, hg]
        | some hp =>
          by_cases hz : hp = 0
          · simp [denominatorValueCode, resolveDenominatorSpec, denomRawLookup, hg, hz]
          · simp [denominatorValueCode, resolveDenominatorSpec, denomRawLookup,
              denomNativeNominal, builtinAsset, hg, hz]
      · by_cases h4 : mode = "sp500"
        · subst h4
          cases hg : getSP500ForDate st date with
          | none => simp [denominatorValueCode, resolveDenominatorSpec, denomRawLookup, hg]
          | some sp =>
            by_cases hz : sp = 0
            · simp [denominatorValueCode, resolveDenominatorSpec, denomRawLookup, hg, hz]
            · simp [denominatorValueCode, resolveDenominatorSpec, denomRawLookup,
                denomNativeNominal, builtinAsset, hg, hz]
        · by_cases h5 : mode = "cape"
          · subst h5
            cases hg : getCapeForDate st date with
            | none =>
              simp [denominatorValueCode, resolveDenominatorSpec, denomRawLookup, hg]
            | some cv =>
              by_cases hz : cv = 0
              · simp [denominatorValueCode, resolveDenominatorSpec, denomRawLookup, hg, hz]
              · simp [denominatorValueCode, resolveDenominatorSpec, denomRawLookup,
                  denomNativeNominal, builtinAsset, hg, hz]
          · by_cases h6 : (st.customAssets mode).isSome
            · cases hg : getCustomAssetPriceForDate st mode date with
              | error e =>
                simp [denominatorValueCode, resolveDenominatorSpec, denomRawLookup,
                  h1, h2, h3, h4, h5, h6, hg]
              | ok o =>
                cases o with
                | none =>
                  simp [denominatorValueCode, resolveDenominatorSpec, denomRawLookup,
                    h1, h2, h3, h4, h5, h6, hg]
                | some cp =>
                  by_cases hz : cp = 0
                  · simp [denominatorValueCode, resolveDenominatorSpec, denomRawLookup,
                      h1, h2, h3, h4, h5, h6, hg, hz]
                  · simp [denominatorValueCode, resolveDenominatorSpec, denomRawLookup,
                      denomNativeNominal, builtinAsset, toReal,
                      h1, h2, h3, h4, h5, h6, hg, hz]
            · simp [denominatorValueCode, resolveDenominatorSpec, denomRawLookup,
                h1, h2, h3, h4, h5, h6]

/-- C5.  In asset-denominated (ratio) mode, a missing or zero resolved
denominator makes getAssetValue return null (the model is total over
the rationals, so no NaN or Infinity value exists to return), and the
data loop of createDataset emits only points whose valuation resolved to
a value: every output pair comes from an input observation whose
getAssetValue is that value, null points contributing nothing. -/
theorem ratio_denominator_null_policy :
    (∀ (st : St) (p : Obs) (asset mode : String), mode ≠ "real" → mode ≠ "nominal" →
      (denominatorValueCode st mode p.date = .ok none ∨
        denominatorValueCode st mode p.date = .ok (some 0)) →
      getAssetValue st p asset mode = .ok none) ∧
    (∀ (st : St) (asset mode : String) (items : List Obs) (pts : List (ℤ × ℚ)),
      collectPoints st asset mode items = .ok pts →
      ∀ q ∈ pts, ∃ item ∈ items, item.date = q.1 ∧
        getAssetValue st item asset mode = .ok (some q.2)) := by
  constructor
  · intro st p asset mode hm1 hm2 hd
    unfold getAssetValue
    cases hr : rawAssetValue st p asset mode with
    | none => simp only [hr, ite_self]
    | some assetValue =>
      simp only [hr, if_neg hm1, if_neg hm2]
      rcases hd with hd | hd <;> simp only [hd] <;> simp [ite_self]
  · intro st asset mode items
    induction items with
    | nil =>
      intro pts h q hq
      simp only [collectPoints] at h
      injection h with h
      subst h
      cases hq
    | cons item rest ih =>
      intro pts h q hq
      simp only [collectPoints] at h
      cases hg : getAssetValue st item asset mode with
      | error e => rw [hg] at h; exact absurd h (by simp)
      | ok o =>
        rw [hg] at h
        cases o with
        | none =>
          obtain ⟨item2, hmem, hd, hv⟩ := ih pts h q hq
          exact ⟨item2, List.mem_cons_of_mem _ hmem, hd, hv⟩
        | some v =>
          cases hrec : collectPoints st asset mode rest with
          | error e => rw [hrec] at h; exact absurd h (by simp)
          | ok pts2 =>
            rw [hrec] at h
            injection h with h
            subst h
            rcases List.mem_cons.mp hq with hq | hq
            · subst hq
              exact ⟨item, List.mem_cons_self _ _, rfl, hg⟩
            · obtain ⟨item2, hmem, hd, hv⟩ := ih pts2 hrec q hq
              exact ⟨item2, List.mem_cons_of_mem _ hmem, hd, hv⟩

/-- Witness for C5: with an empty gold series the gold denominator is
unresolved and the cape/gold valuation of a concrete observation is
null, and collecting the points of a one-observation list drops it. -/
theorem ratio_denominator_null_policy_witness :
    getAssetValue emptySt obsNoCape "cape" "gold" = .ok none ∧
    collectPoints emptySt "cape" "gold" [obsNoCape] = .ok [] :=
  ⟨ratio_denominator_null_policy.1 emptySt obsNoCape "cape" "gold"
      (by decide) (by decide) (Or.inl rfl),
   rfl⟩

/-- Stock series for the C8 failing input: two observations with equal
cape 10 but cpi 50 then 100, so that real and nominal gold differ at the
first date. -/
def stockC8 : List Obs :=
  [{ date := 0, cape := some 10, cpi := some 50 },
   { date := 100, cape := some 10, cpi := some 100 }]

/-- Gold series for the C8 failing input: constant nominal price 100. -/
def goldC8 : List Obs :=
  [{ date := 0, price := some 100 }, { date := 100, price := some 100 }]

/-- C8.  At the failing input, the historical ratio population that
preprocess computeStats feeds to the percentile divides cape by NOMINAL
gold ([1/10, 1/10]), not by the real gold value the claim states
([1/20, 1/10]): the percentile of the snapshot is 0 where the
real-gold population of the spec gives 50. -/
theorem computeStats_nominal_gold_divergence :
    Pre.allRatios stockC8 goldC8 = [1 / 10, 1 / 10] ∧
    Pre.specHistoricalRatios stockC8 goldC8 = [1 / 20, 1 / 10] ∧
    Pre.allRatios stockC8 goldC8 ≠ Pre.specHistoricalRatios stockC8 goldC8 ∧
    Pre.computeStats stockC8 goldC8 = some (1 / 10, 0) ∧
    percentileOf (Pre.specHistoricalRatios stockC8 goldC8) (1 / 10) = 50 := by
  have h1 : Pre.allRatios stockC8 goldC8 = [1 / 10, 1 / 10] := by
    norm_num [Pre.allRatios, Pre.getGoldPrice, nearestObs, nearestScanP, List.filterMap,
      List.insertionSort, List.orderedInsert, stockC8, goldC8]
  have h2 : Pre.specHistoricalRatios stockC8 goldC8 = [1 / 20, 1 / 10] := by
    norm_num [Pre.specHistoricalRatios, Pre.adjustGoldForInflation, Pre.getCPI,
      Pre.getGoldPrice, nearestObs, nearestScanP, List.filterMap, List.insertionSort,
      List.orderedInsert, List.getLast?, stockC8, goldC8]
  refine ⟨h1, h2, ?_, ?_, ?_⟩
  · rw [h1, h2]
    intro h
    have := List.head_eq_of_cons_eq h
    norm_num at this
  · norm_num [Pre.computeStats, Pre.adjustGoldForInflation, Pre.getCPI, Pre.getGoldPrice,
      Pre.allRatios, nearestObs, nearestScanP, List.filterMap, List.insertionSort,
      List.orderedInsert, List.getLast?, percentileOf, List.filter, stockC8, goldC8]
  · rw [h2]
    norm_num [percentileOf, List.filter]

end SG
